import Mathlib

/-!
# GroceryConcierge — verification of the core against its specification

Shallow embedding of `src/main.py` (smart fridge management system).

Modelling conventions:
* Python `int` is embedded as `ℤ`; Python `float` money amounts are embedded
  as exact `ℚ` (the spec mandates exact decimal arithmetic for accumulation,
  and every price in the program is an exact two-decimal literal).
* Python `round(x, 2)` (round half to even on the second decimal) is embedded
  by `round2` below, implementing the same ties-to-even rule on `ℚ`.
* `datetime` values are embedded as `ℤ` minute counts; `timedelta(days=k)`
  adds `k * 1440`, `timedelta(hours=2)` adds `120`, `timedelta(minutes=30)`
  adds `30`.  ISO-8601 date strings (`"%Y-%m-%d"`) compare lexicographically
  exactly as the dates they denote, so `expiry_date` and the cutoff produced
  by `strftime` are embedded as day numbers in `ℤ` with the same order.
* Python `dict` iteration order is insertion order, so the `meal_plan`
  mapping is embedded as an association list.
* File persistence (`save_inventory`) and logging are side effects outside
  the data model and are not represented; `remove_item`/`add_item` act on
  the `items` list and return the same values as the source.
-/

/-! ## Inventory data model (`FridgeItem`, `FridgeInventory`) -/

/-- Python `str.lower()`: lower-case every character.  (Lean's own
`String.toLower` is the same map but is defined by well-founded recursion,
which the kernel cannot evaluate; this structural version lets witnesses be
checked by `decide`.) -/
def lowerName (s : String) : String := ⟨s.data.map Char.toLower⟩

/-- `FridgeItem` dataclass from `src/main.py`.  `expiryDate` is the ISO date
embedded as a day number (see module docstring). -/
structure FridgeItem where
  name : String
  quantity : ℤ
  unit : String
  expiryDate : ℤ
  category : String
deriving DecidableEq, Repr

/-- `FridgeInventory.get_expiring_soon`: items whose `expiry_date` is at most
`now + days` (the source compares ISO strings, which is date order). -/
def getExpiringSoon (now days : ℤ) (items : List FridgeItem) : List FridgeItem :=
  items.filter (fun item => item.expiryDate ≤ now + days)

/-- `FridgeInventory.get_low_stock`: items with `quantity ≤ threshold`. -/
def getLowStock (threshold : ℤ) (items : List FridgeItem) : List FridgeItem :=
  items.filter (fun item => item.quantity ≤ threshold)

/-- `FridgeInventory.remove_item`: scan for the first case-insensitive name
match; if found with enough stock, decrement (deleting the line when the
quantity reaches exactly 0) and return `true`; otherwise return `false`
leaving the list unchanged. -/
def removeItem (name : String) (qty : ℤ) : List FridgeItem → List FridgeItem × Bool
  | [] => ([], false)
  | item :: rest =>
    if lowerName item.name = lowerName name then
      if qty ≤ item.quantity then
        if item.quantity - qty = 0 then (rest, true)
        else ({ item with quantity := item.quantity - qty } :: rest, true)
      else (item :: rest, false)
    else
      ((item :: (removeItem name qty rest).1), (removeItem name qty rest).2)

/-- `FridgeInventory.add_item`: increment the first case-insensitive name
match, or append the new item at the end when there is none. -/
def addItem (item : FridgeItem) : List FridgeItem → List FridgeItem
  | [] => [item]
  | existing :: rest =>
    if lowerName existing.name = lowerName item.name then
      { existing with quantity := existing.quantity + item.quantity } :: rest
    else
      existing :: addItem item rest

/-! ## Helper lemmas about `removeItem` / `addItem` -/

lemma removeItem_of_no_match (name : String) (qty : ℤ) :
    ∀ items : List FridgeItem, (∀ it ∈ items, lowerName it.name ≠ lowerName name) →
      removeItem name qty items = (items, false) := by
  intro items
  induction items with
  | nil => intro _; rfl
  | cons e rest ih =>
    intro h
    have he : lowerName e.name ≠ lowerName name := h e (by simp)
    have hrest := ih (fun it hit => h it (by simp [hit]))
    simp [removeItem, he, hrest]

lemma removeItem_append_no_match (name : String) (qty : ℤ)
    (pre rest : List FridgeItem) (hpre : ∀ it ∈ pre, lowerName it.name ≠ lowerName name) :
    removeItem name qty (pre ++ rest) =
      (pre ++ (removeItem name qty rest).1, (removeItem name qty rest).2) := by
  induction pre with
  | nil => simp
  | cons e pre' ih =>
    have he : lowerName e.name ≠ lowerName name := hpre e (by simp)
    have ih' := ih (fun it hit => hpre it (by simp [hit]))
    simp [removeItem, he, ih']

/-- C1: `remove_item` succeeds exactly on a case-insensitive match with
enough stock, decrementing (and deleting on exact depletion); otherwise it
signals failure and leaves the store unchanged. -/
theorem removeItem_spec (name : String) (qty : ℤ) (items : List FridgeItem) :
    ((∀ it ∈ items, lowerName it.name ≠ lowerName name) →
        removeItem name qty items = (items, false)) ∧
    (∀ pre m suf, items = pre ++ m :: suf →
        (∀ it ∈ pre, lowerName it.name ≠ lowerName name) →
        lowerName m.name = lowerName name →
        ((qty ≤ m.quantity →
            removeItem name qty items =
              (pre ++ (if m.quantity - qty = 0 then suf
                       else { m with quantity := m.quantity - qty } :: suf), true)) ∧
         (m.quantity < qty →
            removeItem name qty items = (items, false)))) := by
  constructor
  · exact removeItem_of_no_match name qty items
  · intro pre m suf hitems hpre hm
    subst hitems
    rw [removeItem_append_no_match name qty pre (m :: suf) hpre]
    constructor
    · intro hqty
      by_cases hz : m.quantity - qty = 0
      · simp [removeItem, hm, hqty, hz]
      · simp [removeItem, hm, hqty, hz]
    · intro hlt
      have hq : ¬ qty ≤ m.quantity := by omega
      simp [removeItem, hm, hq]

theorem removeItem_spec_witness :
    (1 : ℤ) ≤ 3 ∧
    removeItem "milk" 1 [⟨"Milk", 3, "gallon", 10, "dairy"⟩] =
      ([⟨"Milk", 2, "gallon", 10, "dairy"⟩], true) := by
  refine ⟨by norm_num, ?_⟩
  have h := ((removeItem_spec "milk" 1 [⟨"Milk", 3, "gallon", 10, "dairy"⟩]).2
      [] ⟨"Milk", 3, "gallon", 10, "dairy"⟩ [] rfl (by simp) (by decide)).1 (by decide)
  simpa using h

lemma removeItem_frame (name : String) (qty : ℤ) (items : List FridgeItem) :
    ∃ pre mid mid' suf,
      items = pre ++ mid ++ suf ∧
      (removeItem name qty items).1 = pre ++ mid' ++ suf ∧
      mid.length ≤ 1 ∧ mid'.length ≤ 1 ∧
      (∀ x ∈ pre, lowerName x.name ≠ lowerName name) ∧
      (∀ x ∈ mid, lowerName x.name = lowerName name) ∧
      (∀ x ∈ mid', lowerName x.name = lowerName name) := by
  induction items with
  | nil => exact ⟨[], [], [], [], by simp, by simp [removeItem], by simp, by simp,
      by simp, by simp, by simp⟩
  | cons e rest ih =>
    by_cases he : lowerName e.name = lowerName name
    · by_cases hq : qty ≤ e.quantity
      · by_cases hz : e.quantity - qty = 0
        · exact ⟨[], [e], [], rest, by simp, by simp [removeItem, he, hq, hz],
            by simp, by simp, by simp, by simp [he], by simp⟩
        · exact ⟨[], [e], [{ e with quantity := e.quantity - qty }], rest, by simp,
            by simp [removeItem, he, hq, hz], by simp, by simp, by simp,
            by simp [he], by simp [he]⟩
      · exact ⟨[], [e], [e], rest, by simp, by simp [removeItem, he, hq],
          by simp, by simp, by simp, by simp [he], by simp [he]⟩
    · obtain ⟨pre, mid, mid', suf, h1, h2, h3, h4, h5, h6, h7⟩ := ih
      refine ⟨e :: pre, mid, mid', suf, by simp [h1], ?_, h3, h4, ?_, h6, h7⟩
      · simp only [removeItem, he, if_neg he]
        simpa using h2
      · intro x hx
        rcases List.mem_cons.mp hx with h | h
        · subst h; exact he
        · exact h5 x h

lemma addItem_frame (item : FridgeItem) (items : List FridgeItem) :
    ∃ pre mid mid' suf,
      items = pre ++ mid ++ suf ∧
      addItem item items = pre ++ mid' ++ suf ∧
      mid.length ≤ 1 ∧ mid'.length ≤ 1 ∧
      (∀ x ∈ pre, lowerName x.name ≠ lowerName item.name) ∧
      (∀ x ∈ mid, lowerName x.name = lowerName item.name) ∧
      (∀ x ∈ mid', lowerName x.name = lowerName item.name) := by
  induction items with
  | nil => exact ⟨[], [], [item], [], by simp, by simp [addItem], by simp, by simp,
      by simp, by simp, by simp⟩
  | cons e rest ih =>
    by_cases he : lowerName e.name = lowerName item.name
    · exact ⟨[], [e], [{ e with quantity := e.quantity + item.quantity }], rest, by simp,
        by simp [addItem, he], by simp, by simp, by simp, by simp [he], by simp [he]⟩
    · obtain ⟨pre, mid, mid', suf, h1, h2, h3, h4, h5, h6, h7⟩ := ih
      refine ⟨e :: pre, mid, mid', suf, by simp [h1], ?_, h3, h4, ?_, h6, h7⟩
      · simp only [addItem, if_neg he]
        simpa using h2
      · intro x hx
        rcases List.mem_cons.mp hx with h | h
        · subst h; exact he
        · exact h5 x h

/-- C10: both `remove_item` and `add_item` touch at most one line — the first
one whose lower-cased name matches the argument — and every other line is
unchanged in all fields and keeps its relative position (the store splits as
`pre ++ mid ++ suf` with only the at-most-one-element `mid` replaced, `pre`
containing no match, so later case-insensitive duplicates lie in `suf`). -/
theorem addRemove_frame (name : String) (qty : ℤ) (item : FridgeItem)
    (items : List FridgeItem) :
    (∃ pre mid mid' suf,
        items = pre ++ mid ++ suf ∧
        (removeItem name qty items).1 = pre ++ mid' ++ suf ∧
        mid.length ≤ 1 ∧ mid'.length ≤ 1 ∧
        (∀ x ∈ pre, lowerName x.name ≠ lowerName name) ∧
        (∀ x ∈ mid, lowerName x.name = lowerName name) ∧
        (∀ x ∈ mid', lowerName x.name = lowerName name)) ∧
    (∃ pre mid mid' suf,
        items = pre ++ mid ++ suf ∧
        addItem item items = pre ++ mid' ++ suf ∧
        mid.length ≤ 1 ∧ mid'.length ≤ 1 ∧
        (∀ x ∈ pre, lowerName x.name ≠ lowerName item.name) ∧
        (∀ x ∈ mid, lowerName x.name = lowerName item.name) ∧
        (∀ x ∈ mid', lowerName x.name = lowerName item.name)) :=
  ⟨removeItem_frame name qty items, addItem_frame item items⟩

/-! ## Store invariant (C2) -/

/-- One mutating inventory operation (`add_item` or `remove_item`). -/
inductive InvOp where
  | add (item : FridgeItem)
  | remove (name : String) (qty : ℤ)
deriving Repr

/-- Apply one operation to the store. -/
def applyOp : InvOp → List FridgeItem → List FridgeItem
  | .add item, items => addItem item items
  | .remove name qty, items => (removeItem name qty items).1

/-- Apply a sequence of operations in order. -/
def applyOps (ops : List InvOp) (items : List FridgeItem) : List FridgeItem :=
  ops.foldl (fun s op => applyOp op s) items

/-- Spec §3 store invariant: every line has quantity ≥ 0 and no line with
quantity exactly 0 is retained. -/
def StoreInv (items : List FridgeItem) : Prop :=
  ∀ it ∈ items, 0 ≤ it.quantity ∧ it.quantity ≠ 0

instance (items : List FridgeItem) : Decidable (StoreInv items) :=
  List.decidableBAll _ items

/-- The claimed argument constraint: the data-model field constraint
`quantity ≥ 0` on the argument of each call. -/
def ArgNonneg : InvOp → Prop
  | .add item => 0 ≤ item.quantity
  | .remove _ qty => 0 ≤ qty

/-- The constraint the code actually needs: `add_item` arguments must have
strictly positive quantity (removals are unrestricted). -/
def ArgPos : InvOp → Prop
  | .add item => 0 < item.quantity
  | .remove _ _ => True

instance : DecidablePred ArgNonneg := fun op => by cases op <;> simp [ArgNonneg] <;> infer_instance

instance : DecidablePred ArgPos := fun op => by cases op <;> simp [ArgPos] <;> infer_instance

lemma addItem_preserves_inv (item : FridgeItem) (items : List FridgeItem)
    (hinv : StoreInv items) (hpos : 0 < item.quantity) :
    StoreInv (addItem item items) := by
  induction items with
  | nil =>
    intro it hit
    simp [addItem] at hit
    subst hit
    exact ⟨by omega, by omega⟩
  | cons e rest ih =>
    have he := hinv e (by simp)
    have hrest : StoreInv rest := fun it hit => hinv it (by simp [hit])
    by_cases hm : lowerName e.name = lowerName item.name
    · intro it hit
      simp [addItem, hm] at hit
      rcases hit with h | h
      · subst h; constructor <;> simp <;> omega
      · exact hrest it h
    · intro it hit
      simp [addItem, hm] at hit
      rcases hit with h | h
      · subst h; exact he
      · exact ih hrest it h

lemma removeItem_preserves_inv (name : String) (qty : ℤ) (items : List FridgeItem)
    (hinv : StoreInv items) : StoreInv ((removeItem name qty items).1) := by
  induction items with
  | nil => intro it hit; simp [removeItem] at hit
  | cons e rest ih =>
    have he := hinv e (by simp)
    have hrest : StoreInv rest := fun it hit => hinv it (by simp [hit])
    by_cases hm : lowerName e.name = lowerName name
    · by_cases hq : qty ≤ e.quantity
      · by_cases hz : e.quantity - qty = 0
        · intro it hit
          simp [removeItem, hm, hq, hz] at hit
          exact hrest it hit
        · intro it hit
          simp [removeItem, hm, hq, hz] at hit
          rcases hit with h | h
          · subst h; exact ⟨by simp; omega, by simpa using hz⟩
          · exact hrest it h
      · intro it hit
        simp [removeItem, hm, hq] at hit
        rcases hit with h | h
        · subst h; exact he
        · exact hrest it h
    · intro it hit
      simp [removeItem, hm] at hit
      rcases hit with h | h
      · subst h; exact he
      · exact ih hrest it h

/-- C2 counterexample: the claim fails as stated.  `add_item` with the
data-model-conforming argument quantity 0 (`quantity ≥ 0`) inserts a line
with quantity exactly 0 into an inventory that satisfied the invariant. -/
theorem storeInv_claim_counterexample :
    StoreInv ([] : List FridgeItem) ∧
    ArgNonneg (.add ⟨"Milk", 0, "gallon", 10, "dairy"⟩) ∧
    ¬ StoreInv (applyOps [.add ⟨"Milk", 0, "gallon", 10, "dairy"⟩] []) := by
  refine ⟨by decide, by decide, ?_⟩
  intro h
  have := h ⟨"Milk", 0, "gallon", 10, "dairy"⟩ (by decide)
  exact this.2 rfl

/-- C2 (amended): every sequence of `add_item`/`remove_item` calls preserves
the invariant (quantity ≥ 0 and no retained quantity-0 line) provided each
`add_item` argument has quantity ≥ 1; removal requests are unrestricted. -/
theorem storeInv_preserved (ops : List InvOp) (items : List FridgeItem)
    (hinv : StoreInv items) (hops : ∀ op ∈ ops, ArgPos op) :
    StoreInv (applyOps ops items) := by
  induction ops generalizing items with
  | nil => simpa [applyOps] using hinv
  | cons op rest ih =>
    have hop := hops op (by simp)
    have hrest : ∀ o ∈ rest, ArgPos o := fun o ho => hops o (by simp [ho])
    have hstep : StoreInv (applyOp op items) := by
      cases op with
      | add item => exact addItem_preserves_inv item items hinv hop
      | remove name qty => exact removeItem_preserves_inv name qty items hinv
    simpa [applyOps] using ih (applyOp op items) hstep hrest

theorem storeInv_preserved_witness :
    StoreInv [⟨"Eggs", 8, "pieces", 12, "dairy"⟩] ∧
    (∀ op ∈ [InvOp.add ⟨"Milk", 1, "gallon", 10, "dairy"⟩,
             InvOp.remove "eggs" 8], ArgPos op) ∧
    StoreInv (applyOps [InvOp.add ⟨"Milk", 1, "gallon", 10, "dairy"⟩,
             InvOp.remove "eggs" 8] [⟨"Eggs", 8, "pieces", 12, "dairy"⟩]) :=
  ⟨by decide, by decide,
    storeInv_preserved _ _ (by decide) (by decide)⟩

/-! ## Exact-decimal rounding (Python `round(x, 2)`) -/

/-- Round a rational to the nearest integer, ties to even — Python's `round`
rule for the ideal decimal value. -/
def roundHalfEven (q : ℚ) : ℤ :=
  if q - ⌊q⌋ < 1/2 then ⌊q⌋
  else if 1/2 < q - ⌊q⌋ then ⌊q⌋ + 1
  else if Even ⌊q⌋ then ⌊q⌋ else ⌊q⌋ + 1

/-- Python `round(x, 2)`: round to two decimal places. -/
def round2 (q : ℚ) : ℚ := (roundHalfEven (q * 100) : ℚ) / 100

lemma roundHalfEven_intCast (n : ℤ) : roundHalfEven (n : ℚ) = n := by
  simp [roundHalfEven]

lemma abs_roundHalfEven_sub_le (q : ℚ) : |(roundHalfEven q : ℚ) - q| ≤ 1/2 := by
  have h0 : (⌊q⌋ : ℚ) ≤ q := Int.floor_le q
  have h1 : q < ⌊q⌋ + 1 := Int.lt_floor_add_one q
  unfold roundHalfEven
  by_cases hlt : q - ⌊q⌋ < 1/2
  · rw [if_pos hlt, abs_le]; constructor <;> linarith
  · rw [if_neg hlt]
    by_cases hgt : 1/2 < q - ⌊q⌋
    · rw [if_pos hgt, abs_le]; constructor <;> push_cast <;> linarith
    · rw [if_neg hgt]
      have heq : q - ⌊q⌋ = 1/2 := le_antisymm (le_of_not_lt hgt) (le_of_not_lt hlt)
      by_cases hev : Even ⌊q⌋
      · rw [if_pos hev, abs_le]; constructor <;> linarith
      · rw [if_neg hev, abs_le]; constructor <;> push_cast <;> linarith

lemma round2_int_div_hundred (n : ℤ) : round2 ((n : ℚ) / 100) = (n : ℚ) / 100 := by
  have h : ((n : ℚ) / 100) * 100 = (n : ℚ) := by field_simp
  rw [round2, h, roundHalfEven_intCast]

lemma abs_round2_sub_le (q : ℚ) : |round2 q - q| ≤ 1/200 := by
  have h := abs_roundHalfEven_sub_le (q * 100)
  have h100 : round2 q - q = ((roundHalfEven (q * 100) : ℚ) - q * 100) / 100 := by
    rw [round2]; ring
  rw [h100, abs_div]
  have : |(100 : ℚ)| = 100 := by norm_num
  rw [this]
  linarith

/-! ## Grocery data model and store catalog (`GroceryManager`) -/

/-- `GroceryItem` dataclass from `src/main.py`. -/
structure GroceryItem where
  name : String
  quantity : ℤ
  unit : String
  category : String
  estimatedPrice : ℚ
  storeItemId : Option String
deriving DecidableEq, Repr

/-- One value of the `store_catalog` dict. -/
structure CatalogEntry where
  price : ℚ
  unit : String
  available : Bool
  storeId : String
deriving DecidableEq, Repr

/-- The hard-coded `GroceryManager.store_catalog` (lower-cased keys). -/
def storeCatalog : List (String × CatalogEntry) :=
  [("milk", ⟨399/100, "gallon", true, "MILK001"⟩),
   ("eggs", ⟨249/100, "dozen", true, "EGG001"⟩),
   ("chicken breast", ⟨899/100, "lb", true, "CHKN001"⟩),
   ("broccoli", ⟨199/100, "head", true, "BROC001"⟩),
   ("spinach", ⟨299/100, "bag", true, "SPIN001"⟩),
   ("salmon", ⟨1299/100, "lb", true, "SALM001"⟩),
   ("pasta", ⟨149/100, "box", true, "PAST001"⟩),
   ("olive oil", ⟨499/100, "bottle", true, "OIL001"⟩)]

/-- The `store_item` sub-dict built for a catalog hit. -/
structure StoreItem where
  name : String
  storeId : String
  price : ℚ
  unit : String
  available : Bool
  totalCost : ℚ
deriving DecidableEq, Repr

/-- One element of the list returned by `search_products`. -/
structure ProductResult where
  requestedItem : GroceryItem
  storeItem : Option StoreItem
  error : Option String
deriving DecidableEq, Repr

/-- The result `search_products` builds for one requested item: a
case-insensitive catalog hit carries pricing with
`total_cost = price * quantity`, a miss carries an explicit error marker. -/
def resolveOne (item : GroceryItem) : ProductResult :=
  match storeCatalog.lookup (lowerName item.name) with
  | some entry =>
    { requestedItem := item,
      storeItem := some
        { name := item.name, storeId := entry.storeId, price := entry.price,
          unit := entry.unit, available := entry.available,
          totalCost := entry.price * item.quantity },
      error := none }
  | none =>
    { requestedItem := item, storeItem := none,
      error := some "Product not found in store catalog" }

/-- `GroceryManager.search_products`: one result per requested item, in
order. -/
def searchProducts (groceryList : List GroceryItem) : List ProductResult :=
  groceryList.map resolveOne

/-- The filter used by `create_order`:
`p.get('store_item') and p['store_item']['available']`. -/
def isAvailable (p : ProductResult) : Bool :=
  match p.storeItem with
  | some s => s.available
  | none => false

/-- `p['store_item']['total_cost']` (0 for a miss; `create_order` only reads
it on lines whose `store_item` is present). -/
def lineTotal (p : ProductResult) : ℚ :=
  match p.storeItem with
  | some s => s.totalCost
  | none => 0

/-- The order dict built by `create_order` (timestamps as `ℤ` minutes,
decimal formatting of the order id abstracted by `toString`). -/
structure OrderInfo where
  orderId : String
  status : String
  items : List ProductResult
  subtotal : ℚ
  deliveryFee : ℚ
  tip : ℚ
  total : ℚ
  estimatedDelivery : ℤ
  store : String
deriving DecidableEq, Repr

/-- `GroceryManager.create_order`: filter to available lines, fail on an
empty filtered set, otherwise price the order (15% tip on the unrounded
subtotal, $5.99 delivery fee, each exposed figure rounded to 2 decimals). -/
def createOrder (now : ℤ) (products : List ProductResult)
    (deliveryTime : Option ℤ) : Except String OrderInfo :=
  let availableProducts := products.filter isAvailable
  if availableProducts.isEmpty then
    .error "No available products to order"
  else
    let totalCost := (availableProducts.map lineTotal).sum
    let deliveryFee : ℚ := 599/100
    let tip := totalCost * (15/100)
    let totalWithFees := totalCost + deliveryFee + tip
    .ok
      { orderId := "ORD_" ++ toString now,
        status := "confirmed",
        items := availableProducts,
        subtotal := round2 totalCost,
        deliveryFee := deliveryFee,
        tip := round2 tip,
        total := round2 totalWithFees,
        estimatedDelivery := deliveryTime.getD (now + 120),
        store := "Mock Grocery Store" }

/-! ## Catalog lemmas -/

lemma lookup_mem_catalog :
    ∀ (l : List (String × CatalogEntry)) (k : String) (e : CatalogEntry),
      l.lookup k = some e → (k, e) ∈ l := by
  intro l
  induction l with
  | nil => intro k e h; simp [List.lookup] at h
  | cons p rest ih =>
    intro k e h
    rw [List.lookup] at h
    by_cases hk : k == p.1
    · simp [hk] at h
      subst h
      have : k = p.1 := by simpa using hk
      subst this
      simp
    · simp [hk] at h
      exact List.mem_cons_of_mem _ (ih k e h)

lemma catalog_available (k : String) (e : CatalogEntry)
    (h : storeCatalog.lookup k = some e) : e.available = true := by
  have hm := lookup_mem_catalog storeCatalog k e h
  fin_cases hm <;> rfl

lemma catalog_price_cents (k : String) (e : CatalogEntry)
    (h : storeCatalog.lookup k = some e) : ∃ m : ℤ, e.price = (m : ℚ) / 100 := by
  have hm := lookup_mem_catalog storeCatalog k e h
  fin_cases hm
  · exact ⟨399, by norm_num⟩
  · exact ⟨249, by norm_num⟩
  · exact ⟨899, by norm_num⟩
  · exact ⟨199, by norm_num⟩
  · exact ⟨299, by norm_num⟩
  · exact ⟨1299, by norm_num⟩
  · exact ⟨149, by norm_num⟩
  · exact ⟨499, by norm_num⟩

lemma searchProducts_matched_available (g : List GroceryItem) (p : ProductResult)
    (hp : p ∈ searchProducts g) (hm : p.storeItem.isSome = true) :
    isAvailable p = true := by
  rw [searchProducts] at hp
  obtain ⟨item, _, hfp⟩ := List.mem_map.mp hp
  subst hfp
  rcases hcat : storeCatalog.lookup (lowerName item.name) with _ | entry
  · simp [resolveOne, hcat] at hm
  · simpa [isAvailable, resolveOne, hcat] using catalog_available _ _ hcat

lemma searchProducts_lineTotal_cents (g : List GroceryItem) (p : ProductResult)
    (hp : p ∈ searchProducts g) : ∃ n : ℤ, lineTotal p = (n : ℚ) / 100 := by
  rw [searchProducts] at hp
  obtain ⟨item, _, hfp⟩ := List.mem_map.mp hp
  subst hfp
  rcases hcat : storeCatalog.lookup (lowerName item.name) with _ | entry
  · exact ⟨0, by simp [lineTotal, resolveOne, hcat]⟩
  · obtain ⟨m, hm⟩ := catalog_price_cents _ _ hcat
    refine ⟨m * item.quantity, ?_⟩
    simp only [lineTotal, resolveOne, hcat, hm]
    push_cast
    ring

lemma sum_cents (l : List ProductResult)
    (h : ∀ p ∈ l, ∃ n : ℤ, lineTotal p = (n : ℚ) / 100) :
    ∃ n : ℤ, (l.map lineTotal).sum = (n : ℚ) / 100 := by
  induction l with
  | nil => exact ⟨0, by simp⟩
  | cons p rest ih =>
    obtain ⟨n, hn⟩ := h p (by simp)
    obtain ⟨m, hm⟩ := ih (fun q hq => h q (by simp [hq]))
    refine ⟨n + m, ?_⟩
    simp [hn, hm]
    ring


/-- C6: `search_products` returns exactly one result per input item, in the
same order; a case-insensitive catalog hit carries
`total_cost = unit_price * quantity`, a miss carries no `store_item` and the
explicit not-found marker.  Resolution is a total function (no exception). -/
theorem searchProducts_spec (g : List GroceryItem) :
    (searchProducts g).length = g.length ∧
    ∀ (i : ℕ) (item : GroceryItem), g[i]? = some item →
      ((∃ entry, storeCatalog.lookup (lowerName item.name) = some entry ∧
          (searchProducts g)[i]? = some
            { requestedItem := item,
              storeItem := some
                { name := item.name, storeId := entry.storeId,
                  price := entry.price, unit := entry.unit,
                  available := entry.available,
                  totalCost := entry.price * item.quantity },
              error := none }) ∨
       (storeCatalog.lookup (lowerName item.name) = none ∧
          (searchProducts g)[i]? = some
            { requestedItem := item, storeItem := none,
              error := some "Product not found in store catalog" })) := by
  constructor
  · simp [searchProducts]
  · intro i item hi
    have hmap : (searchProducts g)[i]? = some (resolveOne item) := by
      rw [searchProducts, List.getElem?_map, hi]
      rfl
    rcases hcat : storeCatalog.lookup (lowerName item.name) with _ | entry
    · right
      refine ⟨rfl, ?_⟩
      rw [hmap]
      simp [resolveOne, hcat]
    · left
      refine ⟨entry, rfl, ?_⟩
      rw [hmap]
      simp [resolveOne, hcat]

theorem searchProducts_spec_witness :
    ([⟨"Milk", 2, "gallon", "dairy", 0, none⟩,
      ⟨"Caviar", 1, "tin", "seafood", 0, none⟩] :
        List GroceryItem)[0]? = some (⟨"Milk", 2, "gallon", "dairy", 0, none⟩ : GroceryItem) ∧
    ((∃ entry, storeCatalog.lookup (lowerName "Milk") = some entry ∧
        (searchProducts [⟨"Milk", 2, "gallon", "dairy", 0, none⟩,
          ⟨"Caviar", 1, "tin", "seafood", 0, none⟩])[0]? = some
          { requestedItem := ⟨"Milk", 2, "gallon", "dairy", 0, none⟩,
            storeItem := some
              { name := "Milk", storeId := entry.storeId, price := entry.price,
                unit := entry.unit, available := entry.available,
                totalCost := entry.price * 2 },
            error := none }) ∨
     (storeCatalog.lookup (lowerName "Milk") = none ∧
        (searchProducts [⟨"Milk", 2, "gallon", "dairy", 0, none⟩,
          ⟨"Caviar", 1, "tin", "seafood", 0, none⟩])[0]? = some
          { requestedItem := ⟨"Milk", 2, "gallon", "dairy", 0, none⟩,
            storeItem := none,
            error := some "Product not found in store catalog" })) := by
  refine ⟨by decide, ?_⟩
  exact (searchProducts_spec [⟨"Milk", 2, "gallon", "dairy", 0, none⟩,
    ⟨"Caviar", 1, "tin", "seafood", 0, none⟩]).2 0
    ⟨"Milk", 2, "gallon", "dairy", 0, none⟩ (by decide)

/-- C5: with no matched-and-available line, `create_order` returns an
explicit error value (not an exception) and constructs no order. -/
theorem createOrder_empty_error (now : ℤ) (products : List ProductResult)
    (dt : Option ℤ) (h : products.filter isAvailable = []) :
    createOrder now products dt = .error "No available products to order" := by
  simp [createOrder, h]

theorem createOrder_empty_error_witness :
    ([({ requestedItem := ⟨"Milk", 2, "gallon", "dairy", 0, none⟩,
         storeItem := some
           { name := "Milk", storeId := "MILK001", price := 399/100,
             unit := "gallon", available := false, totalCost := 798/100 },
         error := none } : ProductResult)].filter isAvailable = []) ∧
    createOrder 0
      [({ requestedItem := ⟨"Milk", 2, "gallon", "dairy", 0, none⟩,
          storeItem := some
            { name := "Milk", storeId := "MILK001", price := 399/100,
              unit := "gallon", available := false, totalCost := 798/100 },
          error := none } : ProductResult)] none =
      .error "No available products to order" :=
  ⟨by decide, createOrder_empty_error 0 _ none (by decide)⟩

lemma createOrder_ok (now : ℤ) (products : List ProductResult) (dt : Option ℤ)
    (h : (products.filter isAvailable).isEmpty = false) :
    createOrder now products dt = .ok
      { orderId := "ORD_" ++ toString now, status := "confirmed",
        items := products.filter isAvailable,
        subtotal := round2 ((products.filter isAvailable).map lineTotal).sum,
        deliveryFee := 599/100,
        tip := round2 (((products.filter isAvailable).map lineTotal).sum * (15/100)),
        total := round2 (((products.filter isAvailable).map lineTotal).sum + 599/100 +
          ((products.filter isAvailable).map lineTotal).sum * (15/100)),
        estimatedDelivery := dt.getD (now + 120),
        store := "Mock Grocery Store" } := by
  simp [createOrder, h]

/-- C3: on any resolver output with at least one available line,
`create_order` succeeds; the exposed subtotal is the rounded (here: exact,
since all line totals are whole cents) sum of the included line totals, the
tip is the subtotal times 0.15 rounded to 2 decimals, and the total is
subtotal + 5.99 + subtotal * 0.15 up to the 0.01 rounding tolerance. -/
theorem createOrder_pricing (now : ℤ) (dt : Option ℤ) (g : List GroceryItem)
    (hne : (searchProducts g).filter isAvailable ≠ []) :
    ∃ o, createOrder now (searchProducts g) dt = .ok o ∧
      o.subtotal = round2 ((((searchProducts g).filter isAvailable).map lineTotal).sum) ∧
      o.subtotal = (((searchProducts g).filter isAvailable).map lineTotal).sum ∧
      o.tip = round2 (o.subtotal * (15/100)) ∧
      |o.total - (o.subtotal + 599/100 + o.subtotal * (15/100))| ≤ 1/100 := by
  have hempty : ((searchProducts g).filter isAvailable).isEmpty = false := by
    simpa [List.isEmpty_iff] using hne
  obtain ⟨n, hS⟩ := sum_cents ((searchProducts g).filter isAvailable)
    (fun p hp => searchProducts_lineTotal_cents g p (List.mem_of_mem_filter hp))
  have hsub : round2 ((((searchProducts g).filter isAvailable).map lineTotal).sum) =
      (((searchProducts g).filter isAvailable).map lineTotal).sum := by
    rw [hS]; exact round2_int_div_hundred n
  refine ⟨_, createOrder_ok now (searchProducts g) dt hempty, rfl, hsub, ?_, ?_⟩
  · simp only [hsub]
  · simp only [hsub]
    calc |round2 ((((searchProducts g).filter isAvailable).map lineTotal).sum + 599/100 +
          (((searchProducts g).filter isAvailable).map lineTotal).sum * (15/100)) -
          ((((searchProducts g).filter isAvailable).map lineTotal).sum + 599/100 +
          (((searchProducts g).filter isAvailable).map lineTotal).sum * (15/100))|
        ≤ 1/200 := abs_round2_sub_le _
      _ ≤ 1/100 := by norm_num

theorem createOrder_pricing_witness :
    ((searchProducts [⟨"Milk", 2, "gallon", "dairy", 0, none⟩]).filter isAvailable ≠ []) ∧
    ∃ o, createOrder 0 (searchProducts [⟨"Milk", 2, "gallon", "dairy", 0, none⟩]) none = .ok o ∧
      o.subtotal = round2 ((((searchProducts [⟨"Milk", 2, "gallon", "dairy", 0, none⟩]).filter
        isAvailable).map lineTotal).sum) ∧
      o.subtotal = (((searchProducts [⟨"Milk", 2, "gallon", "dairy", 0, none⟩]).filter
        isAvailable).map lineTotal).sum ∧
      o.tip = round2 (o.subtotal * (15/100)) ∧
      |o.total - (o.subtotal + 599/100 + o.subtotal * (15/100))| ≤ 1/100 :=
  ⟨by decide, createOrder_pricing 0 none _ (by decide)⟩

/-- C8: `get_expiring_soon` returns exactly the lines with
`expiry_date ≤ now + days` and `get_low_stock` exactly those with
`quantity ≤ threshold` (both boundaries inclusive), and both are monotone in
their threshold argument. -/
theorem queries_inclusive_monotone (now : ℤ) (items : List FridgeItem)
    (d₁ d₂ t₁ t₂ : ℤ) :
    (∀ it, it ∈ getExpiringSoon now d₁ items ↔
        it ∈ items ∧ it.expiryDate ≤ now + d₁) ∧
    (∀ it, it ∈ getLowStock t₁ items ↔ it ∈ items ∧ it.quantity ≤ t₁) ∧
    (d₁ ≤ d₂ → getExpiringSoon now d₁ items ⊆ getExpiringSoon now d₂ items) ∧
    (t₁ ≤ t₂ → getLowStock t₁ items ⊆ getLowStock t₂ items) := by
  refine ⟨?_, ?_, ?_, ?_⟩
  · intro it
    simp [getExpiringSoon, List.mem_filter]
  · intro it
    simp [getLowStock, List.mem_filter]
  · intro hd it hit
    rw [getExpiringSoon, List.mem_filter] at hit ⊢
    exact ⟨hit.1, by have := of_decide_eq_true hit.2; simp; omega⟩
  · intro ht it hit
    rw [getLowStock, List.mem_filter] at hit ⊢
    exact ⟨hit.1, by have := of_decide_eq_true hit.2; simp; omega⟩

theorem queries_inclusive_monotone_witness :
    ((3 : ℤ) ≤ 5) ∧
    getExpiringSoon 0 3 [⟨"Bread", 1, "loaf", 2, "grain"⟩] ⊆
      getExpiringSoon 0 5 [⟨"Bread", 1, "loaf", 2, "grain"⟩] :=
  ⟨by norm_num,
    (queries_inclusive_monotone 0 [⟨"Bread", 1, "loaf", 2, "grain"⟩] 3 5 0 0).2.2.1
      (by norm_num)⟩

/-! ## Day keys (`"day_<N>"`): Python `split('_')` and `int(...)` -/

/-- Python `str.split(c)` for a single-character separator, over the
underlying character list. -/
def splitChar (c : Char) : List Char → List (List Char)
  | [] => [[]]
  | x :: xs =>
    match splitChar c xs with
    | [] => [[]]
    | y :: ys => if x = c then [] :: y :: ys else (x :: y) :: ys

/-- Python `int(s)` on a string of decimal digits. -/
def pyInt (cs : List Char) : ℕ :=
  cs.foldl (fun n c => 10 * n + (c.toNat - 48)) 0

/-- The decimal digit characters of `n`, most significant first — the
characters the f-string `f"{n}"` produces (for `n ≥ 1`). -/
def natDigitChars (n : ℕ) : List Char :=
  ((Nat.digits 10 n).reverse).map (fun d => Char.ofNat (48 + d))

/-- The day key `f"day_{k}"` used by the plan generator and the scheduler. -/
def dayKey (k : ℕ) : String := ⟨['d', 'a', 'y', '_'] ++ natDigitChars k⟩

/-- `int(day_key.split('_')[1])` from `schedule_meal_prep_reminders`. -/
def parseDayNum (key : String) : ℕ :=
  pyInt ((splitChar '_' key.data).getD 1 [])

lemma splitChar_no_sep (c : Char) :
    ∀ l : List Char, c ∉ l → splitChar c l = [l] := by
  intro l
  induction l with
  | nil => intro _; rfl
  | cons x xs ih =>
    intro h
    have hx : ¬ x = c := fun hc => h (by simp [hc])
    have hxs := ih (fun hc => h (by simp [hc]))
    simp [splitChar, hxs, hx]

lemma digit_char_toNat (d : ℕ) (hd : d < 10) :
    (Char.ofNat (48 + d)).toNat = 48 + d := by
  interval_cases d <;> rfl

lemma digit_char_ne_sep (d : ℕ) (hd : d < 10) : ¬ Char.ofNat (48 + d) = '_' := by
  interval_cases d <;> decide

lemma sep_not_mem_natDigitChars (n : ℕ) : '_' ∉ natDigitChars n := by
  intro h
  obtain ⟨d, hd, hc⟩ := List.mem_map.mp h
  exact digit_char_ne_sep d
    (Nat.digits_lt_base (by norm_num) (List.mem_reverse.mp hd)) hc

lemma splitChar_dayKey (k : ℕ) :
    splitChar '_' (dayKey k).data = [['d', 'a', 'y'], natDigitChars k] := by
  have h : splitChar '_' (natDigitChars k) = [natDigitChars k] :=
    splitChar_no_sep '_' _ (sep_not_mem_natDigitChars k)
  show splitChar '_' (['d', 'a', 'y', '_'] ++ natDigitChars k) = _
  simp [splitChar, h]

lemma foldl_digit_chars (l : List ℕ) (hl : ∀ d ∈ l, d < 10) : ∀ a : ℕ,
    List.foldl (fun x c => 10 * x + (c.toNat - 48)) a
        (l.map (fun d => Char.ofNat (48 + d))) =
      List.foldl (fun x d => 10 * x + d) a l := by
  induction l with
  | nil => intro a; rfl
  | cons d L ih =>
    intro a
    have hd : d < 10 := hl d (by simp)
    simp only [List.map_cons, List.foldl_cons, digit_char_toNat d hd]
    have h48 : 48 + d - 48 = d := by omega
    rw [h48]
    exact ih (fun x hx => hl x (by simp [hx])) _

lemma foldl_base10_reverse (l : List ℕ) : ∀ a : ℕ,
    List.foldl (fun x d => 10 * x + d) a l.reverse =
      a * 10 ^ l.length + Nat.ofDigits 10 l := by
  induction l with
  | nil => intro a; simp
  | cons d L ih =>
    intro a
    simp only [List.reverse_cons, List.foldl_append, List.foldl_cons,
      List.foldl_nil, ih a, Nat.ofDigits_cons, List.length_cons]
    ring

lemma pyInt_natDigitChars (n : ℕ) : pyInt (natDigitChars n) = n := by
  rw [pyInt, natDigitChars,
    foldl_digit_chars _ (fun d hd => Nat.digits_lt_base (by norm_num)
      (List.mem_reverse.mp hd)),
    foldl_base10_reverse]
  simp [Nat.ofDigits_digits]

lemma parseDayNum_dayKey (k : ℕ) : parseDayNum (dayKey k) = k := by
  rw [parseDayNum, splitChar_dayKey]
  simpa using pyInt_natDigitChars k

/-! ## Meal plans (`MealPlanner`) -/

/-- The `{breakfast, lunch, dinner}` dict for one day. -/
structure Meals where
  breakfast : String
  lunch : String
  dinner : String
deriving DecidableEq, Repr

/-- The meal-plan shape produced by the generator: day-keyed meal
assignments (insertion-ordered association list), grocery gap-list and
advisory notes. -/
structure MealPlan where
  mealPlan : List (String × Meals)
  groceryList : List GroceryItem
  notes : List String
deriving DecidableEq, Repr

/-- `MealPlanner._generate_mock_meal_plan`: the deterministic fallback.
It ignores the inventory argument entirely. -/
def generateMockMealPlan (_inventory : List FridgeItem) (days : ℤ) : MealPlan :=
  { mealPlan := (List.range days.toNat).map (fun i =>
      (dayKey (i + 1),
       ⟨"Scrambled eggs with cheese",
        "Chicken and vegetable stir-fry",
        "Grilled salmon with rice and broccoli"⟩)),
    groceryList :=
      [⟨"Spinach", 1, "bag", "vegetable", 299/100, none⟩,
       ⟨"Salmon", 1, "lb", "seafood", 1299/100, none⟩,
       ⟨"Pasta", 1, "box", "grain", 149/100, none⟩,
       ⟨"Olive Oil", 1, "bottle", "condiment", 499/100, none⟩],
    notes :=
      ["This is a mock meal plan. Connect OpenAI API for personalized planning.",
       "Use ingredients expiring soon first.",
       "Consider batch cooking for efficiency."] }

/-- C9: the fallback plan generator is deterministic and pure — its output
depends on nothing but the horizon (in particular not on the inventory
snapshot): every day of `day_1..day_N` carries the same three fixed meal
descriptions, the grocery list is a fixed non-empty list of staples with
strictly positive estimated prices, and the notes are fixed. -/
theorem mockMealPlan_deterministic (inv₁ inv₂ : List FridgeItem) (days : ℤ) :
    generateMockMealPlan inv₁ days = generateMockMealPlan inv₂ days ∧
    (generateMockMealPlan inv₁ days).mealPlan.map Prod.fst =
      (List.range days.toNat).map (fun i => dayKey (i + 1)) ∧
    (∀ e ∈ (generateMockMealPlan inv₁ days).mealPlan,
      e.2 = ⟨"Scrambled eggs with cheese",
             "Chicken and vegetable stir-fry",
             "Grilled salmon with rice and broccoli"⟩) ∧
    (generateMockMealPlan inv₁ days).groceryList ≠ [] ∧
    (∀ item ∈ (generateMockMealPlan inv₁ days).groceryList,
      0 < item.estimatedPrice) ∧
    (generateMockMealPlan inv₁ days).notes =
      ["This is a mock meal plan. Connect OpenAI API for personalized planning.",
       "Use ingredients expiring soon first.",
       "Consider batch cooking for efficiency."] := by
  refine ⟨rfl, ?_, ?_, ?_, ?_, rfl⟩
  · simp [generateMockMealPlan]
  · intro e he
    simp [generateMockMealPlan] at he
    obtain ⟨i, _, hi⟩ := he
    simp [← hi]
  · simp [generateMockMealPlan]
  · intro item hit
    simp [generateMockMealPlan] at hit
    rcases hit with h | h | h | h <;> subst h <;> norm_num

/-! ## Calendar events (`CalendarManager`) -/

/-- An event dict appended to `CalendarManager.events` (`kind` embeds the
source's `type` key; timestamps are `ℤ` minutes). -/
structure Event where
  eventId : String
  title : String
  description : String
  startTime : ℤ
  reminderTime : Option ℤ
  durationMinutes : Option ℤ
  kind : String
  status : String
deriving DecidableEq, Repr

/-- The event built for one `(day_key, meals)` pair in
`schedule_meal_prep_reminders`; `anchor` is `datetime.now()` replaced to
18:00 (the fixed daily anchor), `1440` is `timedelta(days=1)` in minutes.
The `meals.get(..., 'TBD')` defaults never fire on shape-conforming plans,
whose day entries always carry all three meal fields. -/
def mkMealPrepEvent (anchor : ℤ) (key : String) (meals : Meals) : Event :=
  let dayNum : ℤ := (parseDayNum key : ℤ) - 1
  { eventId := "MEAL_PREP_" ++ key,
    title := "Meal Prep - Day " ++ toString (dayNum + 1),
    description := "Tonight's dinner: " ++ meals.dinner ++
      "\nTomorrow's breakfast: " ++ meals.breakfast,
    startTime := anchor + dayNum * 1440,
    reminderTime := none,
    durationMinutes := some 60,
    kind := "meal_prep",
    status := "scheduled" }

/-- `CalendarManager.schedule_meal_prep_reminders`: build one event per day
entry of the plan, append each to the event log, and return the list of the
events just built (not the whole log). -/
def scheduleMealPrepReminders (anchor : ℤ) (plan : List (String × Meals))
    (log : List Event) : List Event × List Event :=
  let events := plan.map (fun e => mkMealPrepEvent anchor e.1 e.2)
  (events, log ++ events)

/-- C7: on a plan with day keys `day_1..day_N`, the scheduler appends
exactly `N` events to the log and returns exactly those events; the event
for day `k` starts at the 18:00 anchor offset by `k - 1` days and carries
that day's dinner and breakfast in its description. -/
theorem scheduleMealPrep_spec (anchor : ℤ) (N : ℕ) (meals : ℕ → Meals)
    (log : List Event) :
    (scheduleMealPrepReminders anchor
        ((List.range N).map (fun i => (dayKey (i + 1), meals i))) log).1.length = N ∧
    (scheduleMealPrepReminders anchor
        ((List.range N).map (fun i => (dayKey (i + 1), meals i))) log).2 =
      log ++ (scheduleMealPrepReminders anchor
        ((List.range N).map (fun i => (dayKey (i + 1), meals i))) log).1 ∧
    (scheduleMealPrepReminders anchor
        ((List.range N).map (fun i => (dayKey (i + 1), meals i))) log).1 =
      (List.range N).map (fun k =>
        { eventId := "MEAL_PREP_" ++ dayKey (k + 1),
          title := "Meal Prep - Day " ++ toString ((k : ℤ) + 1),
          description := "Tonight's dinner: " ++ (meals k).dinner ++
            "\nTomorrow's breakfast: " ++ (meals k).breakfast,
          startTime := anchor + k * 1440,
          reminderTime := none,
          durationMinutes := some 60,
          kind := "meal_prep",
          status := "scheduled" }) := by
  refine ⟨by simp [scheduleMealPrepReminders], by simp [scheduleMealPrepReminders], ?_⟩
  simp only [scheduleMealPrepReminders, List.map_map]
  apply List.map_congr_left
  intro i _
  simp only [Function.comp_apply, mkMealPrepEvent, parseDayNum_dayKey]
  have h1 : ((i + 1 : ℕ) : ℤ) - 1 = (i : ℤ) := by push_cast; ring
  simp [h1]

/-- `CalendarManager.schedule_delivery_reminder`: one delivery-kind event at
the order's estimated delivery time, reminder 30 minutes earlier, appended
to the log (decimal formatting of the total abstracted by `toString`). -/
def scheduleDeliveryReminder (order : OrderInfo) (log : List Event) :
    Event × List Event :=
  let event : Event :=
    { eventId := "DELIVERY_" ++ order.orderId,
      title := "Grocery Delivery Arriving - Order " ++ order.orderId,
      description := "Grocery delivery from " ++ order.store ++
        "\nTotal: $" ++ toString order.total ++
        "\nItems: " ++ toString order.items.length ++ " items",
      startTime := order.estimatedDelivery,
      reminderTime := some (order.estimatedDelivery - 30),
      durationMinutes := none,
      kind := "delivery_reminder",
      status := "scheduled" }
  (event, log ++ [event])

/-- The composite bundle returned by `plan_and_order`.  `order = none` means
`create_order` was never invoked; `some r` records the call's result. -/
structure WorkflowResult where
  mealPlan : MealPlan
  grocerySearchResults : List ProductResult
  totalEstimatedCost : ℚ
  order : Option (Except String OrderInfo)
  calendarEvents : List Event

/-- `GroceryConcierge.plan_and_order` downstream of plan generation: resolve
the plan's grocery list, total the matched line costs, and when
`auto_order` is set and a matched line exists, create the order and (on
success) schedule the delivery and meal-prep reminders.  `preferred` embeds
the `"%Y-%m-%d 16:00"` tomorrow-afternoon preferred delivery slot; `anchor`
is the scheduler's 18:00 daily anchor. -/
def planAndOrder (now anchor preferred : ℤ) (plan : MealPlan)
    (autoOrder : Bool) (log : List Event) : WorkflowResult × List Event :=
  let products := searchProducts plan.groceryList
  let availableProducts := products.filter (fun p => p.storeItem.isSome)
  let totalCost : ℚ :=
    if availableProducts.isEmpty then 0 else (availableProducts.map lineTotal).sum
  if autoOrder && !availableProducts.isEmpty then
    match createOrder now availableProducts (some preferred) with
    | .ok o =>
      let d := scheduleDeliveryReminder o log
      let m := scheduleMealPrepReminders anchor plan.mealPlan d.2
      ({ mealPlan := plan, grocerySearchResults := products,
         totalEstimatedCost := totalCost, order := some (.ok o),
         calendarEvents := d.1 :: m.1 }, m.2)
    | .error msg =>
      ({ mealPlan := plan, grocerySearchResults := products,
         totalEstimatedCost := totalCost, order := some (.error msg),
         calendarEvents := [] }, log)
  else
    ({ mealPlan := plan, grocerySearchResults := products,
       totalEstimatedCost := totalCost, order := none,
       calendarEvents := [] }, log)

lemma cost_if_eq_sum (l : List ProductResult) :
    (if l.isEmpty then (0 : ℚ) else (l.map lineTotal).sum) =
      (l.map lineTotal).sum := by
  by_cases h : l.isEmpty
  · rw [if_pos h, List.isEmpty_iff.mp h]
    simp
  · rw [if_neg h]

/-- C4: the order synthesizer and the reminder scheduler run only when
`auto_order` is set and some resolved line is matched and available, while
`total_estimated_cost` is the sum of the matched line totals regardless of
whether an order was created. -/
theorem planAndOrder_gating (now anchor preferred : ℤ) (plan : MealPlan)
    (ao : Bool) (log : List Event) :
    ((planAndOrder now anchor preferred plan ao log).1.order.isSome = true →
        ao = true ∧ ∃ p ∈ searchProducts plan.groceryList,
          p.storeItem.isSome = true ∧ isAvailable p = true) ∧
    ((planAndOrder now anchor preferred plan ao log).1.calendarEvents ≠ [] →
        ao = true ∧ ∃ p ∈ searchProducts plan.groceryList,
          p.storeItem.isSome = true ∧ isAvailable p = true) ∧
    (planAndOrder now anchor preferred plan ao log).1.totalEstimatedCost =
      (((searchProducts plan.groceryList).filter
          (fun p => p.storeItem.isSome)).map lineTotal).sum ∧
    (planAndOrder now anchor preferred plan true log).1.totalEstimatedCost =
      (planAndOrder now anchor preferred plan false log).1.totalEstimatedCost := by
  have hcost : ∀ b : Bool,
      (planAndOrder now anchor preferred plan b log).1.totalEstimatedCost =
        (((searchProducts plan.groceryList).filter
            (fun p => p.storeItem.isSome)).map lineTotal).sum := by
    intro b
    simp only [planAndOrder]
    split
    · split <;> exact cost_if_eq_sum _
    · exact cost_if_eq_sum _
  have hexists : ((searchProducts plan.groceryList).filter
      (fun p => p.storeItem.isSome)).isEmpty = false →
      ∃ p ∈ searchProducts plan.groceryList,
        p.storeItem.isSome = true ∧ isAvailable p = true := by
    intro hne
    have hnil : (searchProducts plan.groceryList).filter
        (fun p => p.storeItem.isSome) ≠ [] := by
      simpa [List.isEmpty_iff] using hne
    obtain ⟨p, hp⟩ := List.exists_mem_of_ne_nil _ hnil
    have hps := List.mem_filter.mp hp
    exact ⟨p, hps.1, by simpa using hps.2,
      searchProducts_matched_available _ p hps.1 (by simpa using hps.2)⟩
  refine ⟨?_, ?_, hcost ao, (hcost true).trans (hcost false).symm⟩
  · intro hsome
    by_cases hb : ao = true
    · subst hb
      refine ⟨rfl, ?_⟩
      by_cases hemp : ((searchProducts plan.groceryList).filter
          (fun p => p.storeItem.isSome)).isEmpty
      · exfalso
        simp only [planAndOrder] at hsome
        simp [hemp] at hsome
      · exact hexists (by simpa using hemp)
    · exfalso
      have hfalse : ao = false := by
        cases ao
        · rfl
        · exact absurd rfl hb
      simp only [planAndOrder] at hsome
      simp [hfalse] at hsome
  · intro hev
    by_cases hb : ao = true
    · subst hb
      refine ⟨rfl, ?_⟩
      by_cases hemp : ((searchProducts plan.groceryList).filter
          (fun p => p.storeItem.isSome)).isEmpty
      · exfalso
        simp only [planAndOrder] at hev
        simp [hemp] at hev
      · exact hexists (by simpa using hemp)
    · exfalso
      have hfalse : ao = false := by
        cases ao
        · rfl
        · exact absurd rfl hb
      simp only [planAndOrder] at hev
      simp [hfalse] at hev

theorem planAndOrder_gating_witness :
    (planAndOrder 0 0 0 ⟨[], [⟨"Pasta", 1, "box", "grain", 149/100, none⟩], []⟩
        true []).1.order.isSome = true ∧
    (true = true ∧ ∃ p ∈ searchProducts [⟨"Pasta", 1, "box", "grain", 149/100, none⟩],
      p.storeItem.isSome = true ∧ isAvailable p = true) :=
  ⟨by decide,
    (planAndOrder_gating 0 0 0 ⟨[], [⟨"Pasta", 1, "box", "grain", 149/100, none⟩], []⟩
      true []).1 (by decide)⟩
